import Mathlib

/-
Verification development for the two-stage research-paper digestion pipeline
(pdf_processor.py, chatbot.py, main_digester.py).

Python strings are modelled as lists of characters (PyStr).  Fallible Python
functions returning `str | None` become `Option PyStr` (Lean `none` models
Python `None`).  The OpenAI API is modelled as an oracle mapping the attempt
index to a classified outcome, and the retry loop of Chatbot._call_llm is
instrumented to also report how many API calls were made and which sleep
delays were executed, so that attempt counts and delays are provable.
-/

namespace Digester

/-- A Python string, modelled as its list of characters. -/
abbrev PyStr := List Char

/-! ## pdf_processor.py -/

/-- Python str.split() with no arguments: split on runs of whitespace,
discarding empty pieces.  Structural recursion on the character list: a
non-whitespace character either starts a fresh word (when followed by
whitespace or the end) or is prepended to the word started by the next
character. -/
def pySplit : PyStr → List PyStr
  | [] => []
  | c :: cs =>
    if c.isWhitespace then pySplit cs
    else
      match cs with
      | [] => [[c]]
      | d :: _ =>
        if d.isWhitespace then [c] :: pySplit cs
        else
          match pySplit cs with
          | [] => [[c]]
          | w :: ws => (c :: w) :: ws

/-- Python sep.join(pieces). -/
def joinWith (sep : PyStr) : List PyStr → PyStr
  | [] => []
  | [w] => w
  | w :: ws => w ++ sep ++ joinWith sep ws

/-- The whitespace normalisation performed by extract_text_from_pdf:
text = ' '.join(text.split()). -/
def normalizeWs (s : PyStr) : PyStr :=
  joinWith [' '] (pySplit s)

/-- A PDF document as seen by the extractor: either opening/reading raises
(Except.error, carrying the exception message) or it yields the list of
per-page text strings returned by page.get_text(). -/
abbrev PDFDoc := Except PyStr (List PyStr)

/-- extract_text_from_pdf: concatenate the page texts in page order, collapse
whitespace runs to single spaces and trim; any exception while opening or
reading is caught and converted to None. -/
def extract_text_from_pdf (doc : PDFDoc) : Option PyStr :=
  match doc with
  | .error _ => none
  | .ok pages => some (normalizeWs pages.flatten)

/-! ## chatbot.py -/

/-- Python str.strip(): drop leading and trailing whitespace. -/
def pyStrip (s : PyStr) : PyStr :=
  ((s.dropWhile Char.isWhitespace).reverse.dropWhile Char.isWhitespace).reverse

/-- One choice of a chat completion response; message is None or holds a
content field that is itself None or a string. -/
structure Choice where
  message : Option (Option PyStr)
deriving DecidableEq

/-- A chat completion response: its list of choices. -/
structure ChatResponse where
  choices : List Choice
deriving DecidableEq

/-- Outcome of one API call: a response object, or one of the three exception
classes distinguished by the except clauses of Chatbot._call_llm. -/
inductive APIResult where
  /-- The call returned a response object. -/
  | ok (resp : ChatResponse)
  /-- openai.RateLimitError was raised. -/
  | rateLimit
  /-- openai.APIError was raised. -/
  | apiError
  /-- Any other exception was raised. -/
  | otherError
deriving DecidableEq

/-- An API behaviour: the outcome of the n-th API call (0-indexed). -/
abbrev APIBehavior := Nat → APIResult

/-- The body of the while loop of Chatbot._call_llm, recursing on the number
of remaining attempts (max_retries - attempt).  Returns the Python return
value together with the number of API calls made and the list of sleep
delays executed, in order. -/
def call_llm_go (behavior : APIBehavior) (delay : Nat) :
    Nat → Nat → Option PyStr × Nat × List Nat
  | _, 0 => (none, 0, [])
  | attempt, remaining + 1 =>
    match behavior attempt with
    | .ok resp =>
      match resp.choices with
      | [] => (none, 1, [])
      | choice :: _ =>
        match choice.message with
        | none => (none, 1, [])
        | some content =>
          match content with
          | none => (none, 1, [])
          | some s =>
            if s = [] then (none, 1, [])
            else (some (pyStrip s), 1, [])
    | .rateLimit =>
      let r := call_llm_go behavior delay (attempt + 1) remaining
      (r.1, r.2.1 + 1, delay :: r.2.2)
    | .apiError =>
      let r := call_llm_go behavior delay (attempt + 1) remaining
      (r.1, r.2.1 + 1, delay :: r.2.2)
    | .otherError => (none, 1, [])

/-- Chatbot._call_llm with its retry loop: attempt starts at 0 and the loop
runs while attempt < max_retries. -/
def call_llm (behavior : APIBehavior) (max_retries : Nat := 3) (delay : Nat := 5) :
    Option PyStr × Nat × List Nat :=
  call_llm_go behavior delay 0 max_retries

/-- Chatbot.execute_task simply forwards to _call_llm with the default
max_retries and delay. -/
def execute_task (behavior : APIBehavior) : Option PyStr × Nat × List Nat :=
  call_llm behavior 3 5

/-! ## main_digester.py -/

/-- Python s.replace(old, new): replace every non-overlapping occurrence of
old in s by new, scanning left to right.  (The empty pattern is never used
by the pipeline; for it we return s unchanged.) -/
def pyReplace (s pat rep : PyStr) : PyStr :=
  match s with
  | [] => []
  | c :: cs =>
    if h : pat ≠ [] ∧ pat.isPrefixOf (c :: cs) then
      rep ++ pyReplace (List.drop pat.length (c :: cs)) pat rep
    else
      c :: pyReplace cs pat rep
termination_by s.length
decreasing_by
  · have hp : 0 < pat.length := List.length_pos.mpr h.1
    simp only [List.length_drop, List.length_cons]
    omega
  · simp only [List.length_cons]
    omega

/-- The system prompt of the extractor bot. -/
def extractor_role : PyStr :=
  ("You are an AI assistant specialized in extracting key structured information from academic research papers. Focus on accuracy and conciseness.").data

/-- The system prompt of the synthesizer bot. -/
def synthesizer_role : PyStr :=
  ("You are an AI assistant skilled at critically evaluating and synthesizing research paper summaries. Your goal is to produce a final, balanced digest (around 150-250 words) that incorporates the key findings and offers a brief critical perspective.").data

/-- Literal text of the extraction f-string before the interpolation slot. -/
def extraction_pre : PyStr :=
  ("\n    Carefully read the following research paper text. Extract the following sections clearly and concisely:\n    1.  **Core Problem:** What specific problem or question does the paper address?\n    2.  **Proposed Method/Solution:** Briefly describe the key technique, model, or approach proposed.\n    3.  **Key Results:** What were the main quantitative or qualitative findings? Mention key metrics if possible.\n    4.  **Main Conclusion:** What is the primary takeaway or claim of the paper?\n    5.  **Mentioned Limitations:** List any limitations, weaknesses, or future work mentioned by the authors.\n\n    Research Paper Text:\n    ---\n    ").data

/-- Literal text of the extraction f-string after the interpolation slot. -/
def extraction_post : PyStr :=
  ("\n    ---\n    [Note: Only the first 8000 characters of the paper text are provided above due to potential length constraints. Base your extraction on this initial part if the full text is too long for a single prompt in a real scenario, or adjust slicing as needed.]\n\n    Provide the output clearly structured under the headings above.\n    ").data

/-- Literal text of the synthesis f-string before the initial_extraction slot. -/
def synthesis_pre : PyStr :=
  ("\n    You have been provided with an initial extraction from a research paper. Review this extraction in the context of the full paper text (provided again below for reference).\n\n    Your Tasks:\n    1.  **Synthesize:** Combine the extracted points into a coherent narrative digest summarizing the paper\x27s core contribution.\n    2.  **Critique:** Briefly assess the significance of the findings. Are the limitations acknowledged appropriately? Does the method seem sound based on the description? (Be objective).\n    3.  **Format:** Produce a single block of text representing the final digest.\n\n    Initial Extraction:\n    ---\n    ").data

/-- Literal text of the synthesis f-string between the two slots. -/
def synthesis_mid : PyStr :=
  ("\n    ---\n\n    Full Paper Text (for context - may be truncated):\n    ---\n    ").data

/-- Literal text of the synthesis f-string after the paper-text slot. -/
def synthesis_post : PyStr :=
  ("\n    ---\n    [Note: Full paper text context provided again, potentially truncated.]\n\n    Generate the final synthesized and critiqued digest.\n    ").data

/-- The literal first argument of the .replace call; the braces are the
characters U+007B and U+007D. -/
def placeholderLit : PyStr :=
  ("\x7bpaper_text[:8000]\x7d").data

/-- The value of the Python f-string extraction_prompt: the interpolation
slot is filled, at string construction time, with the first 8000 characters
of paper_text. -/
def extraction_prompt_fstring (paper_text : PyStr) : PyStr :=
  extraction_pre ++ paper_text.take 8000 ++ extraction_post

/-- The user prompt actually passed to the extractor bot:
extraction_prompt.replace("\x7bpaper_text[:8000]\x7d", paper_text). -/
def extraction_prompt_sent (paper_text : PyStr) : PyStr :=
  pyReplace (extraction_prompt_fstring paper_text) placeholderLit paper_text

/-- The value of the Python f-string synthesis_prompt, with both slots filled
at construction time. -/
def synthesis_prompt_fstring (initial_extraction paper_text : PyStr) : PyStr :=
  synthesis_pre ++ initial_extraction ++ synthesis_mid ++ paper_text.take 8000 ++ synthesis_post

/-- The user prompt actually passed to the synthesizer bot:
synthesis_prompt.replace("\x7bpaper_text[:8000]\x7d", paper_text). -/
def synthesis_prompt_sent (initial_extraction paper_text : PyStr) : PyStr :=
  pyReplace (synthesis_prompt_fstring initial_extraction paper_text) placeholderLit paper_text

/-- Observable events of one pipeline run, in order: error/warning log lines,
LLM invocations (stage 1 = extractor bot, stage 2 = synthesizer bot) and
blocks printed to standard output. -/
inductive Event where
  /-- logging.error("Failed to extract text. Aborting.") -/
  | extractionFailed
  /-- logging.info about the number of extracted characters. -/
  | textExtracted (n : Nat)
  /-- Warning that the extracted text is very long. -/
  | warnTooLong (n : Nat)
  /-- Warning that the extracted text is very short. -/
  | warnTooShort (n : Nat)
  /-- Chatbot construction failed (missing API key). -/
  | initFailed
  /-- An LLM stage is invoked (1 = extractor, 2 = synthesizer). -/
  | llmCall (stage : Nat)
  /-- logging.error("Extractor Bot failed to produce an output. Aborting.") -/
  | extractorFailed
  /-- The extractor bot output block printed to standard output. -/
  | printExtraction (t : PyStr)
  /-- logging.error("Synthesizer Bot failed to produce an output.") -/
  | synthFailed
  /-- print("--- Final Digest: FAILED ---") -/
  | printFailedDigest
  /-- The final digest block printed to standard output. -/
  | printDigest (t : PyStr)
  /-- logging.info("--- Digestion Pipeline Completed ---") -/
  | completed
deriving DecidableEq

/-- The length warnings logged after extraction: very long text (above
MAX_TEXT_LENGTH_WARN = 50000) is checked first, then very short text (below
500). -/
def warnEvents (t : PyStr) : List Event :=
  if 50000 < t.length then [Event.warnTooLong t.length]
  else if t.length < 500 then [Event.warnTooShort t.length]
  else []

/-- run_digestion_pipeline, as the ordered list of its observable events.
The two bots are modelled by API behaviours that may depend on the system and
user prompts they are invoked with; initOk models whether the two Chatbot
constructors succeed (OPENAI_API_KEY present). -/
def run_digestion_pipeline (doc : PDFDoc) (initOk : Bool)
    (extractorAPI synthAPI : PyStr → PyStr → APIBehavior) : List Event :=
  match extract_text_from_pdf doc with
  | none => [Event.extractionFailed]
  | some t =>
    if t = [] then [Event.extractionFailed]
    else if initOk then
      match (execute_task (extractorAPI extractor_role (extraction_prompt_sent t))).1 with
      | none => Event.textExtracted t.length :: warnEvents t ++
          [Event.llmCall 1, Event.extractorFailed]
      | some e =>
        if e = [] then Event.textExtracted t.length :: warnEvents t ++
            [Event.llmCall 1, Event.extractorFailed]
        else
          match (execute_task (synthAPI synthesizer_role (synthesis_prompt_sent e t))).1 with
          | none =>
            Event.textExtracted t.length :: warnEvents t ++
              [Event.llmCall 1, Event.printExtraction e, Event.llmCall 2,
                Event.synthFailed, Event.printFailedDigest]
          | some d =>
            if d = [] then
              Event.textExtracted t.length :: warnEvents t ++
                [Event.llmCall 1, Event.printExtraction e, Event.llmCall 2,
                  Event.synthFailed, Event.printFailedDigest]
            else
              Event.textExtracted t.length :: warnEvents t ++
                [Event.llmCall 1, Event.printExtraction e, Event.llmCall 2,
                  Event.printDigest d, Event.completed]
    else Event.textExtracted t.length :: warnEvents t ++ [Event.initFailed]

/-! ## Helper lemmas about the retry loop -/

/-- An outcome is retryable when it is one of the two caught-and-retried
exception classes. -/
def retryable (r : APIResult) : Prop :=
  r = APIResult.rateLimit ∨ r = APIResult.apiError

theorem call_llm_go_all_retry (behavior : APIBehavior) (delay : Nat) :
    ∀ (remaining attempt : Nat),
      (∀ n, attempt ≤ n → n < attempt + remaining → retryable (behavior n)) →
      call_llm_go behavior delay attempt remaining =
        (none, remaining, List.replicate remaining delay) := by
  intro remaining
  induction remaining with
  | zero => intro attempt _; simp [call_llm_go]
  | succ r ih =>
    intro attempt h
    have hb : retryable (behavior attempt) := h attempt (Nat.le_refl attempt) (by omega)
    have hrec : call_llm_go behavior delay (attempt + 1) r =
        (none, r, List.replicate r delay) := by
      exact ih (attempt + 1) (fun n h1 h2 => h n (by omega) (by omega))
    rcases hb with hb | hb <;>
      simp [call_llm_go, hb, hrec, List.replicate_succ]

theorem call_llm_go_success (behavior : APIBehavior) (delay : Nat)
    (resp : ChatResponse) (choice : Choice) (rest : List Choice) (content : PyStr) :
    ∀ (k remaining attempt : Nat), k < remaining →
      (∀ n, attempt ≤ n → n < attempt + k → retryable (behavior n)) →
      behavior (attempt + k) = APIResult.ok resp →
      resp.choices = choice :: rest →
      choice.message = some (some content) →
      content ≠ [] →
      call_llm_go behavior delay attempt remaining =
        (some (pyStrip content), k + 1, List.replicate k delay) := by
  intro k
  induction k with
  | zero =>
    intro remaining attempt hk hr hb hc hm hne
    match remaining, hk with
    | r + 1, _ =>
      simp only [Nat.add_zero] at hb
      simp [call_llm_go, hb, hc, hm, hne]
  | succ k ih =>
    intro remaining attempt hk hr hb hc hm hne
    match remaining, hk with
    | r + 1, _ =>
      have hb0 : retryable (behavior attempt) := hr attempt (Nat.le_refl attempt) (by omega)
      have hrec : call_llm_go behavior delay (attempt + 1) r =
          (some (pyStrip content), k + 1, List.replicate k delay) := by
        refine ih r (attempt + 1) (by omega) (fun n h1 h2 => hr n (by omega) (by omega)) ?_ hc hm hne
        have : attempt + 1 + k = attempt + (k + 1) := by omega
        rw [this]; exact hb
      rcases hb0 with hb0 | hb0 <;>
        simp [call_llm_go, hb0, hrec, List.replicate_succ]

theorem call_llm_first_fatal (behavior : APIBehavior) (max_retries delay : Nat)
    (hmr : 0 < max_retries) (hb : behavior 0 = APIResult.otherError) :
    call_llm behavior max_retries delay = (none, 1, []) := by
  match max_retries, hmr with
  | r + 1, _ => simp [call_llm, call_llm_go, hb]

/-- The first-attempt response has an empty or missing message body. -/
def emptyBody (resp : ChatResponse) : Bool :=
  match resp.choices with
  | [] => true
  | choice :: _ =>
    match choice.message with
    | none => true
    | some none => true
    | some (some s) => s.isEmpty

theorem call_llm_first_empty (behavior : APIBehavior) (max_retries delay : Nat)
    (resp : ChatResponse) (hmr : 0 < max_retries) (hb : behavior 0 = APIResult.ok resp)
    (hempty : emptyBody resp = true) :
    call_llm behavior max_retries delay = (none, 1, []) := by
  match max_retries, hmr with
  | r + 1, _ =>
    obtain ⟨choices⟩ := resp
    match choices with
    | [] => simp [call_llm, call_llm_go, hb]
    | choice :: rest =>
      obtain ⟨msg⟩ := choice
      match msg with
      | none => simp [call_llm, call_llm_go, hb]
      | some none => simp [call_llm, call_llm_go, hb]
      | some (some s) =>
        have hs : s = [] := by simpa [emptyBody] using hempty
        subst hs
        simp [call_llm, call_llm_go, hb]

/-! ## Claims C3 to C6: the LLM client retry policy -/

/-- C3: for every API behaviour that raises a non-retryable error (not
rate-limiting and not a retryable server error) on the first attempt, the
LLM client returns absence immediately after exactly 1 attempt, with no
retry and no delay. -/
theorem fatal_error_single_attempt (behavior : APIBehavior) (max_retries delay : Nat)
    (hmr : 0 < max_retries) (hb : behavior 0 = APIResult.otherError) :
    call_llm behavior max_retries delay = (none, 1, []) :=
  call_llm_first_fatal behavior max_retries delay hmr hb

theorem fatal_error_single_attempt_witness :
    (0 : Nat) < 3 ∧ call_llm (fun _ => APIResult.otherError) 3 5 = (none, 1, []) :=
  ⟨by decide, fatal_error_single_attempt (fun _ => APIResult.otherError) 3 5 (by decide) rfl⟩

/-- C4: for every API behaviour in which every attempt fails with a retryable
error (rate limit or retryable server error), the client makes exactly
max_retries attempts and returns absence, each attempt being followed by the
fixed delay; with the defaults this is 3 attempts with 5-unit delays. -/
theorem retry_exhaustion_returns_none (behavior : APIBehavior) (max_retries delay : Nat)
    (hr : ∀ n, n < max_retries → retryable (behavior n)) :
    call_llm behavior max_retries delay =
      (none, max_retries, List.replicate max_retries delay) :=
  call_llm_go_all_retry behavior delay max_retries 0 (fun n _ h2 => hr n (by omega))

theorem retry_exhaustion_returns_none_witness :
    call_llm (fun _ => APIResult.rateLimit) 3 5 = (none, 3, [5, 5, 5]) :=
  retry_exhaustion_returns_none (fun _ => APIResult.rateLimit) 3 5
    (fun _ _ => Or.inl rfl)

/-- C5 (counterexample): a behaviour whose first attempt already succeeds
with the non-empty completion content " x " (so k = 0 < max_retries
retryable failures happened before the success).  The client makes exactly
k + 1 = 1 attempt, but it does not return that completion content: it
returns the stripped string "x". -/
theorem success_content_not_verbatim :
    call_llm (fun _ => APIResult.ok ⟨[⟨some (some [' ', 'x', ' '])⟩]⟩) 3 5 =
      (some ['x'], 1, []) ∧
    ([' ', 'x', ' '] : PyStr) ≠ [] ∧
    (call_llm (fun _ => APIResult.ok ⟨[⟨some (some [' ', 'x', ' '])⟩]⟩) 3 5).1 ≠
      some [' ', 'x', ' '] := by
  refine ⟨rfl, by decide, by decide⟩

/-- C5 (amended): if the API fails with a retryable error exactly k times,
k < max_retries, and then returns a non-empty completion, the client makes
exactly k + 1 attempts, sleeping the fixed delay after each failure, and
returns the completion content stripped of leading and trailing
whitespace. -/
theorem success_after_k_retries (behavior : APIBehavior) (max_retries delay k : Nat)
    (resp : ChatResponse) (choice : Choice) (rest : List Choice) (content : PyStr)
    (hk : k < max_retries) (hr : ∀ n, n < k → retryable (behavior n))
    (hb : behavior k = APIResult.ok resp) (hc : resp.choices = choice :: rest)
    (hm : choice.message = some (some content)) (hne : content ≠ []) :
    call_llm behavior max_retries delay =
      (some (pyStrip content), k + 1, List.replicate k delay) :=
  call_llm_go_success behavior delay resp choice rest content k max_retries 0 hk
    (fun n _ h2 => hr n (by omega)) (by simpa using hb) hc hm hne

theorem success_after_k_retries_witness :
    (1 : Nat) < 3 ∧
    call_llm (fun n => if n = 0 then APIResult.rateLimit
      else APIResult.ok ⟨[⟨some (some ['h', 'i'])⟩]⟩) 3 5 = (some ['h', 'i'], 2, [5]) :=
  ⟨by decide,
    success_after_k_retries
      (fun n => if n = 0 then APIResult.rateLimit
        else APIResult.ok ⟨[⟨some (some ['h', 'i'])⟩]⟩)
      3 5 1 ⟨[⟨some (some ['h', 'i'])⟩]⟩ ⟨some (some ['h', 'i'])⟩ [] ['h', 'i']
      (by decide) (fun n hn => by
        have hn0 : n = 0 := by omega
        subst hn0
        exact Or.inl rfl)
      rfl rfl rfl (by decide)⟩

/-- C6: for every API behaviour whose first call succeeds but returns an
empty or missing message body (no choices, missing message, missing content
or empty content string), the client returns absence after exactly 1
attempt, with no retry. -/
theorem empty_message_single_attempt (behavior : APIBehavior) (max_retries delay : Nat)
    (resp : ChatResponse) (hmr : 0 < max_retries) (hb : behavior 0 = APIResult.ok resp)
    (hempty : emptyBody resp = true) :
    call_llm behavior max_retries delay = (none, 1, []) :=
  call_llm_first_empty behavior max_retries delay resp hmr hb hempty

theorem empty_message_single_attempt_witness :
    (0 : Nat) < 3 ∧ emptyBody ⟨[⟨some (some [])⟩]⟩ = true ∧
    call_llm (fun _ => APIResult.ok ⟨[⟨some (some [])⟩]⟩) 3 5 = (none, 1, []) :=
  ⟨by decide, rfl,
    empty_message_single_attempt (fun _ => APIResult.ok ⟨[⟨some (some [])⟩]⟩) 3 5
      ⟨[⟨some (some [])⟩]⟩ (by decide) rfl rfl⟩

/-! ## Helper lemmas about whitespace normalisation -/

theorem pySplit_cons (c : Char) (cs : PyStr) :
    pySplit (c :: cs) =
      if c.isWhitespace then pySplit cs
      else
        match cs with
        | [] => [[c]]
        | d :: _ =>
          if d.isWhitespace then [c] :: pySplit cs
          else
            match pySplit cs with
            | [] => [[c]]
            | w :: ws => (c :: w) :: ws := rfl

theorem pySplit_ws_cons (c : Char) (cs : PyStr) (hc : c.isWhitespace = true) :
    pySplit (c :: cs) = pySplit cs := by
  rw [pySplit_cons, if_pos hc]

theorem pySplit_sound (s : PyStr) :
    ∀ w ∈ pySplit s, w ≠ [] ∧ ∀ c ∈ w, c.isWhitespace = false := by
  induction s with
  | nil => simp [pySplit]
  | cons c cs ih =>
    intro w hw
    rw [pySplit_cons] at hw
    by_cases hc : c.isWhitespace
    · rw [if_pos hc] at hw
      exact ih w hw
    · rw [if_neg hc] at hw
      cases cs with
      | nil =>
        dsimp only at hw
        simp only [List.mem_singleton] at hw
        subst hw
        exact ⟨by simp, by simpa using Bool.eq_false_iff.mpr hc⟩
      | cons d ds =>
        dsimp only at hw
        by_cases hd : d.isWhitespace
        · rw [if_pos hd] at hw
          rcases List.mem_cons.mp hw with hw | hw
          · subst hw
            exact ⟨by simp, by simpa using Bool.eq_false_iff.mpr hc⟩
          · exact ih w hw
        · rw [if_neg hd] at hw
          rcases hsp : pySplit (d :: ds) with _ | ⟨w', ws'⟩
          · rw [hsp] at hw
            dsimp only at hw
            simp only [List.mem_singleton] at hw
            subst hw
            exact ⟨by simp, by simpa using Bool.eq_false_iff.mpr hc⟩
          · rw [hsp] at hw
            dsimp only at hw
            rcases List.mem_cons.mp hw with hw | hw
            · subst hw
              have hw' := ih w' (by rw [hsp]; exact List.mem_cons_self _ _)
              refine ⟨by simp, ?_⟩
              intro x hx
              rcases List.mem_cons.mp hx with hx | hx
              · subst hx
                exact Bool.eq_false_iff.mpr hc
              · exact hw'.2 x hx
            · exact ih w (by rw [hsp]; exact List.mem_cons_of_mem _ hw)

theorem pySplit_all_ws (s : PyStr) (h : ∀ c ∈ s, c.isWhitespace = true) :
    pySplit s = [] := by
  induction s with
  | nil => rfl
  | cons c cs ih =>
    have hc : c.isWhitespace = true := h c (List.mem_cons_self _ _)
    simp only [pySplit, hc, if_true]
    exact ih (fun x hx => h x (List.mem_cons_of_mem _ hx))

theorem pySplit_word_append (w s : PyStr) (hw : w ≠ [])
    (hnw : ∀ c ∈ w, c.isWhitespace = false) :
    pySplit (w ++ ' ' :: s) = w :: pySplit s := by
  induction w with
  | nil => exact absurd rfl hw
  | cons c w' ih =>
    have hc : c.isWhitespace = false := hnw c (List.mem_cons_self _ _)
    cases w' with
    | nil =>
      show pySplit (c :: ' ' :: s) = [c] :: pySplit s
      rw [pySplit_cons, if_neg (by simp [hc])]
      dsimp only
      rw [if_pos (by decide), pySplit_ws_cons ' ' s (by decide)]
    | cons c'' w'' =>
      have hc'' : c''.isWhitespace = false := hnw c'' (by simp)
      have ihh := ih (by simp) (fun x hx => hnw x (List.mem_cons_of_mem _ hx))
      show pySplit (c :: ((c'' :: w'') ++ ' ' :: s)) = (c :: c'' :: w'') :: pySplit s
      simp only [List.cons_append] at ihh ⊢
      rw [pySplit_cons, if_neg (by simp [hc])]
      dsimp only
      rw [if_neg (by simp [hc'']), ihh]

theorem pySplit_word (w : PyStr) (hw : w ≠ [])
    (hnw : ∀ c ∈ w, c.isWhitespace = false) :
    pySplit w = [w] := by
  induction w with
  | nil => exact absurd rfl hw
  | cons c w' ih =>
    have hc : c.isWhitespace = false := hnw c (List.mem_cons_self _ _)
    cases w' with
    | nil => simp [pySplit, hc]
    | cons c'' w'' =>
      have hc'' : c''.isWhitespace = false := hnw c'' (by simp)
      have ihh := ih (by simp) (fun x hx => hnw x (List.mem_cons_of_mem _ hx))
      rw [pySplit_cons, if_neg (by simp [hc])]
      dsimp only
      rw [if_neg (by simp [hc'']), ihh]

/-- The words produced by pySplit are non-empty and whitespace-free. -/
def GoodWords (ws : List PyStr) : Prop :=
  ∀ w ∈ ws, w ≠ [] ∧ ∀ c ∈ w, c.isWhitespace = false

theorem joinWith_cons_eq (w w2 : PyStr) (ws : List PyStr) :
    joinWith [' '] (w :: w2 :: ws) = w ++ ' ' :: joinWith [' '] (w2 :: ws) := by
  show w ++ [' '] ++ joinWith [' '] (w2 :: ws) = _
  simp [List.append_assoc]

theorem joinWith_ne_nil (w : PyStr) (ws : List PyStr) (hw : w ≠ []) :
    joinWith [' '] (w :: ws) ≠ [] := by
  cases ws with
  | nil => exact hw
  | cons w2 ws' =>
    rw [joinWith_cons_eq]
    simp [hw]

theorem pySplit_joinWith (ws : List PyStr) (good : GoodWords ws) :
    pySplit (joinWith [' '] ws) = ws := by
  induction ws with
  | nil => rfl
  | cons w ws' ih =>
    have hgw := good w (List.mem_cons_self _ _)
    cases ws' with
    | nil => exact pySplit_word w hgw.1 hgw.2
    | cons w2 ws'' =>
      rw [joinWith_cons_eq, pySplit_word_append w _ hgw.1 hgw.2,
        ih (fun x hx => good x (List.mem_cons_of_mem _ hx))]

theorem joinWith_mem (ws : List PyStr) (good : GoodWords ws) :
    ∀ x ∈ joinWith [' '] ws, x = ' ' ∨ x.isWhitespace = false := by
  induction ws with
  | nil => simp [joinWith]
  | cons w ws' ih =>
    have hgw := good w (List.mem_cons_self _ _)
    cases ws' with
    | nil =>
      intro x hx
      exact Or.inr (hgw.2 x hx)
    | cons w2 ws'' =>
      intro x hx
      rw [joinWith_cons_eq] at hx
      rcases List.mem_append.mp hx with hx | hx
      · exact Or.inr (hgw.2 x hx)
      · rcases List.mem_cons.mp hx with hx | hx
        · exact Or.inl hx
        · exact ih (fun y hy => good y (List.mem_cons_of_mem _ hy)) x hx

theorem chain'_word (w : PyStr) (hnw : ∀ c ∈ w, c.isWhitespace = false) :
    List.Chain' (fun a b => ¬(a = ' ' ∧ b = ' ')) w := by
  induction w with
  | nil => exact List.chain'_nil
  | cons a l ih =>
    cases l with
    | nil => simp
    | cons b l' =>
      rw [List.chain'_cons]
      refine ⟨?_, ih (fun c hc => hnw c (List.mem_cons_of_mem _ hc))⟩
      rintro ⟨ha, -⟩
      have := hnw a (List.mem_cons_self _ _)
      rw [ha] at this
      simp at this

theorem joinWith_head? (w : PyStr) (ws : List PyStr) (hw : w ≠ []) :
    (joinWith [' '] (w :: ws)).head? = w.head? := by
  cases ws with
  | nil => rfl
  | cons w2 ws' =>
    rw [joinWith_cons_eq, List.head?_append_of_ne_nil w hw]

theorem chain'_joinWith (ws : List PyStr) (good : GoodWords ws) :
    List.Chain' (fun a b => ¬(a = ' ' ∧ b = ' ')) (joinWith [' '] ws) := by
  induction ws with
  | nil => exact List.chain'_nil
  | cons w ws' ih =>
    have hgw := good w (List.mem_cons_self _ _)
    cases ws' with
    | nil => exact chain'_word w hgw.2
    | cons w2 ws'' =>
      have goodtl : GoodWords (w2 :: ws'') := fun x hx => good x (List.mem_cons_of_mem _ hx)
      rw [joinWith_cons_eq]
      apply List.chain'_append.mpr
      refine ⟨chain'_word w hgw.2, ?_, ?_⟩
      · rw [List.chain'_cons']
        refine ⟨?_, ih goodtl⟩
        intro y hy
        have hh : (joinWith [' '] (w2 :: ws'')).head? = w2.head? :=
          joinWith_head? w2 ws'' (goodtl w2 (List.mem_cons_self _ _)).1
        rw [hh] at hy
        have hmem : y ∈ w2 := List.mem_of_mem_head? hy
        have : y.isWhitespace = false := (goodtl w2 (List.mem_cons_self _ _)).2 y hmem
        rintro ⟨-, hy'⟩
        rw [hy'] at this
        simp at this
      · intro x hx y hy
        simp only [List.head?_cons, Option.mem_def, Option.some.injEq] at hy
        have hmem : x ∈ w := List.mem_of_mem_getLast? hx
        have : x.isWhitespace = false := hgw.2 x hmem
        rintro ⟨hx', -⟩
        rw [hx'] at this
        simp at this

theorem joinWith_getLast?_nonws (ws : List PyStr) (good : GoodWords ws) :
    ∀ c, (joinWith [' '] ws).getLast? = some c → c.isWhitespace = false := by
  induction ws with
  | nil => intro c hc; simp [joinWith] at hc
  | cons w ws' ih =>
    have hgw := good w (List.mem_cons_self _ _)
    cases ws' with
    | nil =>
      intro c hc
      exact hgw.2 c (List.mem_of_getLast?_eq_some hc)
    | cons w2 ws'' =>
      have goodtl : GoodWords (w2 :: ws'') := fun x hx => good x (List.mem_cons_of_mem _ hx)
      intro c hc
      have heq : joinWith [' '] (w :: w2 :: ws'') =
          (w ++ [' ']) ++ joinWith [' '] (w2 :: ws'') := by
        rw [joinWith_cons_eq, List.append_assoc, List.singleton_append]
      rw [heq] at hc
      rw [List.getLast?_append_of_ne_nil (w ++ [' '])
        (joinWith_ne_nil w2 ws'' (goodtl w2 (List.mem_cons_self _ _)).1)] at hc
      exact ih goodtl c hc

theorem normalizeWs_idem (s : PyStr) : normalizeWs (normalizeWs s) = normalizeWs s := by
  unfold normalizeWs
  rw [pySplit_joinWith _ (pySplit_sound s)]

theorem normalizeWs_mem (s : PyStr) :
    ∀ x ∈ normalizeWs s, x = ' ' ∨ x.isWhitespace = false :=
  joinWith_mem _ (pySplit_sound s)

theorem normalizeWs_chain (s : PyStr) :
    List.Chain' (fun a b => ¬(a = ' ' ∧ b = ' ')) (normalizeWs s) :=
  chain'_joinWith _ (pySplit_sound s)

theorem normalizeWs_getLast_nonws (s : PyStr) :
    ∀ c, (normalizeWs s).getLast? = some c → c.isWhitespace = false :=
  joinWith_getLast?_nonws _ (pySplit_sound s)

theorem normalizeWs_head_nonws (s : PyStr) :
    ∀ c, (normalizeWs s).head? = some c → c.isWhitespace = false := by
  have good : GoodWords (pySplit s) := pySplit_sound s
  show ∀ c, (joinWith [' '] (pySplit s)).head? = some c → c.isWhitespace = false
  rcases hsp : pySplit s with _ | ⟨w, ws⟩
  · intro c hc
    simp [joinWith] at hc
  · rw [hsp] at good
    intro c hc
    have hgw := good w (List.mem_cons_self _ _)
    rw [joinWith_head? w ws hgw.1] at hc
    exact hgw.2 c (List.mem_of_mem_head? (Option.mem_def.mpr hc))

/-! ## Claims C7 and C8: the Text Extractor -/

/-- C7 (counterexample): a PDF that opens successfully but has zero pages.
The extractor returns the present (empty) string, not the None absence
signal. -/
theorem zero_page_pdf_empty_not_absent :
    extract_text_from_pdf (Except.ok []) = some [] ∧
    extract_text_from_pdf (Except.ok []) ≠ none :=
  ⟨rfl, by simp [extract_text_from_pdf]⟩

/-- C7 (amended): for every PDF with zero pages or zero extractable text
(all page text whitespace-only), the extractor returns the empty string,
which is falsy in Python and therefore treated by the caller exactly like
the None absence signal; and any exception while opening or reading is
converted to None, so no exception escapes for any input. -/
theorem zero_text_pdf_returns_empty (pages : List PyStr)
    (h : ∀ c ∈ pages.flatten, c.isWhitespace = true) :
    extract_text_from_pdf (Except.ok pages) = some [] ∧
    ∀ err, extract_text_from_pdf (Except.error err) = none := by
  refine ⟨?_, fun err => rfl⟩
  show some (normalizeWs pages.flatten) = some []
  rw [normalizeWs, pySplit_all_ws _ h]
  rfl

theorem zero_text_pdf_returns_empty_witness :
    (∀ c ∈ ([[' '], []] : List PyStr).flatten, c.isWhitespace = true) ∧
    extract_text_from_pdf (Except.ok [[' '], []]) = some [] ∧
    ∀ err, extract_text_from_pdf (Except.error err) = none :=
  ⟨by decide, zero_text_pdf_returns_empty [[' '], []] (by decide)⟩

/-- C8: whenever the extractor returns text, that text contains no tab, no
newline and no two consecutive spaces, has no leading or trailing
whitespace, a second extraction of the same document returns the identical
text (the extractor is a pure function of the document), and re-normalizing
the result leaves it unchanged. -/
theorem extractor_output_normalized (doc : PDFDoc) (t : PyStr)
    (h : extract_text_from_pdf doc = some t) :
    '\t' ∉ t ∧ '\n' ∉ t ∧ ¬ ([' ', ' '] <:+: t) ∧
    (∀ c, t.head? = some c → c.isWhitespace = false) ∧
    (∀ c, t.getLast? = some c → c.isWhitespace = false) ∧
    extract_text_from_pdf doc = some t ∧
    normalizeWs t = t := by
  rcases doc with e | pages
  · exact absurd h (by simp [extract_text_from_pdf])
  · simp only [extract_text_from_pdf, Option.some.injEq] at h
    subst h
    refine ⟨?_, ?_, ?_, normalizeWs_head_nonws _, normalizeWs_getLast_nonws _, rfl,
      normalizeWs_idem _⟩
    · intro hmem
      rcases normalizeWs_mem _ _ hmem with h1 | h1
      · exact absurd h1 (by decide)
      · exact absurd h1 (by decide)
    · intro hmem
      rcases normalizeWs_mem _ _ hmem with h1 | h1
      · exact absurd h1 (by decide)
      · exact absurd h1 (by decide)
    · intro hinf
      have hc2 := List.Chain'.infix (normalizeWs_chain _) hinf
      rw [List.chain'_cons] at hc2
      exact hc2.1 ⟨rfl, rfl⟩

theorem extractor_output_normalized_witness :
    extract_text_from_pdf (Except.ok [['a', 'b', ' '], [' ', 'c', '\n', 'd']]) =
      some ['a', 'b', ' ', 'c', ' ', 'd'] ∧
    ('\t' ∉ (['a', 'b', ' ', 'c', ' ', 'd'] : PyStr) ∧
     '\n' ∉ (['a', 'b', ' ', 'c', ' ', 'd'] : PyStr) ∧
     ¬ ([' ', ' '] <:+: (['a', 'b', ' ', 'c', ' ', 'd'] : PyStr)) ∧
     (∀ c, (['a', 'b', ' ', 'c', ' ', 'd'] : PyStr).head? = some c →
        c.isWhitespace = false) ∧
     (∀ c, (['a', 'b', ' ', 'c', ' ', 'd'] : PyStr).getLast? = some c →
        c.isWhitespace = false) ∧
     extract_text_from_pdf (Except.ok [['a', 'b', ' '], [' ', 'c', '\n', 'd']]) =
       some ['a', 'b', ' ', 'c', ' ', 'd'] ∧
     normalizeWs ['a', 'b', ' ', 'c', ' ', 'd'] = ['a', 'b', ' ', 'c', ' ', 'd']) :=
  ⟨by decide,
    extractor_output_normalized (Except.ok [['a', 'b', ' '], [' ', 'c', '\n', 'd']])
      ['a', 'b', ' ', 'c', ' ', 'd'] (by decide)⟩

/-! ## Claim C1: what text the prompts actually contain -/

theorem pyReplace_no_occurrence (s pat rep : PyStr) (c0 : Char)
    (hp : pat.head? = some c0) (hns : c0 ∉ s) :
    pyReplace s pat rep = s := by
  induction s with
  | nil => simp [pyReplace]
  | cons c cs ih =>
    have hcond : ¬(pat ≠ [] ∧ pat.isPrefixOf (c :: cs) = true) := by
      rintro ⟨hne, hpre⟩
      rcases pat with _ | ⟨p, ps⟩
      · exact hne rfl
      · have hpc : p = c0 := by simpa using hp
        subst hpc
        simp only [List.isPrefixOf_cons₂, Bool.and_eq_true, beq_iff_eq] at hpre
        refine hns ?_
        rw [hpre.1]
        exact List.mem_cons_self _ _
    unfold pyReplace
    rw [dif_neg hcond]
    rw [ih (fun hmem => hns (List.mem_cons_of_mem _ hmem))]

set_option maxRecDepth 100000 in
/-- C1 exhibits a code bug at the concrete document consisting of 8001 'z'
characters.  The Python extraction_prompt is an f-string, so the slot is
filled with the first 8000 characters at construction time; the subsequent
.replace of the literal placeholder is a no-op because that literal no
longer occurs (the prompt built from this document contains no brace
character at all).  Hence the prompt actually sent carries only the 8000
character slice and does not contain the full document text, contrary to
the claim that the full text is always substituted back in. -/
theorem extraction_prompt_truncates :
    extraction_prompt_sent (List.replicate 8001 'z') =
      extraction_pre ++ List.replicate 8000 'z' ++ extraction_post ∧
    ¬ (List.replicate 8001 'z' <:+: extraction_prompt_sent (List.replicate 8001 'z')) := by
  have htake : (List.replicate 8001 'z' : PyStr).take 8000 = List.replicate 8000 'z' := by
    rw [List.take_replicate, (by norm_num : min 8000 8001 = 8000)]
  have hhead : placeholderLit.head? = some '\x7b' := rfl
  have hnotin : '\x7b' ∉ extraction_prompt_fstring (List.replicate 8001 'z') := by
    rw [extraction_prompt_fstring, htake]
    intro hmem
    rcases List.mem_append.mp hmem with hmem | hmem
    · rcases List.mem_append.mp hmem with hmem | hmem
      · exact absurd hmem (by decide)
      · exact absurd (List.eq_of_mem_replicate hmem) (by decide)
    · exact absurd hmem (by decide)
  have hnoop : extraction_prompt_sent (List.replicate 8001 'z') =
      extraction_prompt_fstring (List.replicate 8001 'z') :=
    pyReplace_no_occurrence _ placeholderLit _ '\x7b' hhead hnotin
  constructor
  · rw [hnoop, extraction_prompt_fstring, htake]
  · intro hinf
    have hcount := (List.IsInfix.sublist hinf).count_le 'z'
    have h1 : List.count 'z' (List.replicate 8001 'z') = 8001 :=
      List.count_replicate_self _ _
    have h2 : List.count 'z' (extraction_prompt_sent (List.replicate 8001 'z')) = 8000 := by
      rw [hnoop, extraction_prompt_fstring, htake, List.count_append, List.count_append,
        List.count_replicate_self,
        (by decide : List.count 'z' extraction_pre = 0),
        (by decide : List.count 'z' extraction_post = 0)]
    rw [h1, h2] at hcount
    omega

/-! ## Helper lemmas about the pipeline trace -/

theorem pipeline_abort (doc : PDFDoc) (initOk : Bool)
    (eA sA : PyStr → PyStr → APIBehavior)
    (h : extract_text_from_pdf doc = none ∨ extract_text_from_pdf doc = some []) :
    run_digestion_pipeline doc initOk eA sA = [Event.extractionFailed] := by
  rcases h with h | h
  · unfold run_digestion_pipeline
    rw [h]
  · unfold run_digestion_pipeline
    rw [h]
    dsimp only
    rw [if_pos rfl]

theorem pipeline_stage1_none (doc : PDFDoc) (t : PyStr)
    (eA sA : PyStr → PyStr → APIBehavior)
    (hdoc : extract_text_from_pdf doc = some t) (hne : t ≠ [])
    (h1 : (execute_task (eA extractor_role (extraction_prompt_sent t))).1 = none) :
    run_digestion_pipeline doc true eA sA =
      Event.textExtracted t.length :: warnEvents t ++
        [Event.llmCall 1, Event.extractorFailed] := by
  unfold run_digestion_pipeline
  rw [hdoc]
  dsimp only
  rw [if_neg hne, if_pos rfl, h1]

theorem pipeline_stage1_empty (doc : PDFDoc) (t : PyStr)
    (eA sA : PyStr → PyStr → APIBehavior)
    (hdoc : extract_text_from_pdf doc = some t) (hne : t ≠ [])
    (h1 : (execute_task (eA extractor_role (extraction_prompt_sent t))).1 = some []) :
    run_digestion_pipeline doc true eA sA =
      Event.textExtracted t.length :: warnEvents t ++
        [Event.llmCall 1, Event.extractorFailed] := by
  unfold run_digestion_pipeline
  rw [hdoc]
  dsimp only
  rw [if_neg hne, if_pos rfl, h1]
  dsimp only
  rw [if_pos rfl]

theorem pipeline_stage2_none (doc : PDFDoc) (t e : PyStr)
    (eA sA : PyStr → PyStr → APIBehavior)
    (hdoc : extract_text_from_pdf doc = some t) (hne : t ≠ [])
    (h1 : (execute_task (eA extractor_role (extraction_prompt_sent t))).1 = some e)
    (hene : e ≠ [])
    (h2 : (execute_task (sA synthesizer_role (synthesis_prompt_sent e t))).1 = none) :
    run_digestion_pipeline doc true eA sA =
      Event.textExtracted t.length :: warnEvents t ++
        [Event.llmCall 1, Event.printExtraction e, Event.llmCall 2,
          Event.synthFailed, Event.printFailedDigest] := by
  unfold run_digestion_pipeline
  rw [hdoc]
  dsimp only
  rw [if_neg hne, if_pos rfl, h1]
  dsimp only
  rw [if_neg hene, h2]

theorem pipeline_stage2_empty (doc : PDFDoc) (t e : PyStr)
    (eA sA : PyStr → PyStr → APIBehavior)
    (hdoc : extract_text_from_pdf doc = some t) (hne : t ≠ [])
    (h1 : (execute_task (eA extractor_role (extraction_prompt_sent t))).1 = some e)
    (hene : e ≠ [])
    (h2 : (execute_task (sA synthesizer_role (synthesis_prompt_sent e t))).1 = some []) :
    run_digestion_pipeline doc true eA sA =
      Event.textExtracted t.length :: warnEvents t ++
        [Event.llmCall 1, Event.printExtraction e, Event.llmCall 2,
          Event.synthFailed, Event.printFailedDigest] := by
  unfold run_digestion_pipeline
  rw [hdoc]
  dsimp only
  rw [if_neg hne, if_pos rfl, h1]
  dsimp only
  rw [if_neg hene, h2]
  dsimp only
  rw [if_pos rfl]

theorem pipeline_stage2_success (doc : PDFDoc) (t e d : PyStr)
    (eA sA : PyStr → PyStr → APIBehavior)
    (hdoc : extract_text_from_pdf doc = some t) (hne : t ≠ [])
    (h1 : (execute_task (eA extractor_role (extraction_prompt_sent t))).1 = some e)
    (hene : e ≠ [])
    (h2 : (execute_task (sA synthesizer_role (synthesis_prompt_sent e t))).1 = some d)
    (hdne : d ≠ []) :
    run_digestion_pipeline doc true eA sA =
      Event.textExtracted t.length :: warnEvents t ++
        [Event.llmCall 1, Event.printExtraction e, Event.llmCall 2,
          Event.printDigest d, Event.completed] := by
  unfold run_digestion_pipeline
  rw [hdoc]
  dsimp only
  rw [if_neg hne, if_pos rfl, h1]
  dsimp only
  rw [if_neg hene, h2]
  dsimp only
  rw [if_neg hdne]

theorem pyStrip_all_ws (s : PyStr) (h : ∀ c ∈ s, c.isWhitespace = true) :
    pyStrip s = [] := by
  unfold pyStrip
  have h1 : s.dropWhile Char.isWhitespace = [] :=
    List.dropWhile_eq_nil_iff.mpr (fun x hx => h x hx)
  rw [h1]
  rfl

/-! ## Claims C2, C9 and C10: the orchestrator -/

/-- C2: when extraction yields text that is present (non-empty) but shorter
than 500 characters, the orchestrator only emits the short-text warning and
continues: the extraction-stage LLM call is made, and whenever that stage
produces a non-empty output the synthesis-stage LLM call is made as well.
The pipeline aborts with the extraction-failure report exactly when
extraction yields no text at all (None or the empty string). -/
theorem short_text_warns_and_continues (doc : PDFDoc) (t : PyStr)
    (eA sA : PyStr → PyStr → APIBehavior)
    (hdoc : extract_text_from_pdf doc = some t) (hne : t ≠ [])
    (hshort : t.length < 500) :
    Event.warnTooShort t.length ∈ run_digestion_pipeline doc true eA sA ∧
    Event.llmCall 1 ∈ run_digestion_pipeline doc true eA sA ∧
    (∀ e, (execute_task (eA extractor_role (extraction_prompt_sent t))).1 = some e →
      e ≠ [] → Event.llmCall 2 ∈ run_digestion_pipeline doc true eA sA) ∧
    ∀ doc' : PDFDoc,
      extract_text_from_pdf doc' = none ∨ extract_text_from_pdf doc' = some [] →
      run_digestion_pipeline doc' true eA sA = [Event.extractionFailed] := by
  have hwarn : warnEvents t = [Event.warnTooShort t.length] := by
    unfold warnEvents
    rw [if_neg (by omega), if_pos hshort]
  have hmain : Event.warnTooShort t.length ∈ run_digestion_pipeline doc true eA sA ∧
      Event.llmCall 1 ∈ run_digestion_pipeline doc true eA sA ∧
      (∀ e, (execute_task (eA extractor_role (extraction_prompt_sent t))).1 = some e →
        e ≠ [] → Event.llmCall 2 ∈ run_digestion_pipeline doc true eA sA) := by
    rcases h1 : (execute_task (eA extractor_role (extraction_prompt_sent t))).1 with _ | e
    · rw [pipeline_stage1_none doc t eA sA hdoc hne h1, hwarn]
      refine ⟨by simp, by simp, ?_⟩
      intro e he _
      cases he
    · by_cases he0 : e = []
      · subst he0
        rw [pipeline_stage1_empty doc t eA sA hdoc hne h1, hwarn]
        refine ⟨by simp, by simp, ?_⟩
        intro e' he' hne'
        obtain rfl : e' = [] := by simpa using he'.symm
        exact absurd rfl hne'
      · rcases h2 : (execute_task (sA synthesizer_role (synthesis_prompt_sent e t))).1
          with _ | d
        · rw [pipeline_stage2_none doc t e eA sA hdoc hne h1 he0 h2, hwarn]
          exact ⟨by simp, by simp, fun _ _ _ => by simp⟩
        · by_cases hd0 : d = []
          · subst hd0
            rw [pipeline_stage2_empty doc t e eA sA hdoc hne h1 he0 h2, hwarn]
            exact ⟨by simp, by simp, fun _ _ _ => by simp⟩
          · rw [pipeline_stage2_success doc t e d eA sA hdoc hne h1 he0 h2 hd0, hwarn]
            exact ⟨by simp, by simp, fun _ _ _ => by simp⟩
  exact ⟨hmain.1, hmain.2.1, hmain.2.2,
    fun doc' h' => pipeline_abort doc' true eA sA h'⟩

theorem short_text_warns_and_continues_witness :
    Event.warnTooShort 2 ∈ run_digestion_pipeline (Except.ok [['h', 'i']]) true
      (fun _ _ _ => APIResult.ok ⟨[⟨some (some ['o', 'k'])⟩]⟩)
      (fun _ _ _ => APIResult.otherError) ∧
    Event.llmCall 1 ∈ run_digestion_pipeline (Except.ok [['h', 'i']]) true
      (fun _ _ _ => APIResult.ok ⟨[⟨some (some ['o', 'k'])⟩]⟩)
      (fun _ _ _ => APIResult.otherError) ∧
    Event.llmCall 2 ∈ run_digestion_pipeline (Except.ok [['h', 'i']]) true
      (fun _ _ _ => APIResult.ok ⟨[⟨some (some ['o', 'k'])⟩]⟩)
      (fun _ _ _ => APIResult.otherError) ∧
    run_digestion_pipeline (Except.error ['x']) true
      (fun _ _ _ => APIResult.ok ⟨[⟨some (some ['o', 'k'])⟩]⟩)
      (fun _ _ _ => APIResult.otherError) = [Event.extractionFailed] := by
  have h := short_text_warns_and_continues (Except.ok [['h', 'i']]) ['h', 'i']
    (fun _ _ _ => APIResult.ok ⟨[⟨some (some ['o', 'k'])⟩]⟩)
    (fun _ _ _ => APIResult.otherError)
    (by decide) (by decide) (by decide)
  exact ⟨h.1, h.2.1, h.2.2.1 ['o', 'k'] rfl (by decide),
    h.2.2.2 (Except.error ['x']) (Or.inl rfl)⟩

/-- C9: in every run where extraction succeeds with non-empty text, the
extraction-stage LLM call returns non-empty output and the synthesis-stage
LLM call returns absence, the trace contains the printed extraction-stage
output strictly before the synthesis-failure report: stage 1 output is
shown to the user before (and despite) the stage 2 failure. -/
theorem stage1_output_shown_before_synth_failure (doc : PDFDoc) (t e : PyStr)
    (eA sA : PyStr → PyStr → APIBehavior)
    (hdoc : extract_text_from_pdf doc = some t) (hne : t ≠ [])
    (h1 : (execute_task (eA extractor_role (extraction_prompt_sent t))).1 = some e)
    (hene : e ≠ [])
    (h2 : (execute_task (sA synthesizer_role (synthesis_prompt_sent e t))).1 = none) :
    List.Sublist [Event.printExtraction e, Event.synthFailed, Event.printFailedDigest]
      (run_digestion_pipeline doc true eA sA) := by
  rw [pipeline_stage2_none doc t e eA sA hdoc hne h1 hene h2]
  have hbase : List.Sublist
      [Event.printExtraction e, Event.synthFailed, Event.printFailedDigest]
      [Event.llmCall 1, Event.printExtraction e, Event.llmCall 2,
        Event.synthFailed, Event.printFailedDigest] :=
    List.Sublist.cons _ (List.Sublist.cons₂ _ (List.Sublist.cons _
      (List.Sublist.cons₂ _ (List.Sublist.cons₂ _ List.Sublist.slnil))))
  exact List.Sublist.cons _ (hbase.trans (List.sublist_append_right _ _))

theorem stage1_output_shown_before_synth_failure_witness :
    List.Sublist
      [Event.printExtraction ['o', 'k'], Event.synthFailed, Event.printFailedDigest]
      (run_digestion_pipeline (Except.ok [['h', 'i']]) true
        (fun _ _ _ => APIResult.ok ⟨[⟨some (some ['o', 'k'])⟩]⟩)
        (fun _ _ _ => APIResult.otherError)) :=
  stage1_output_shown_before_synth_failure (Except.ok [['h', 'i']]) ['h', 'i'] ['o', 'k']
    (fun _ _ _ => APIResult.ok ⟨[⟨some (some ['o', 'k'])⟩]⟩)
    (fun _ _ _ => APIResult.otherError)
    (by decide) (by decide) rfl (by decide) rfl

/-- C10: every successful LLM call returns the message content stripped of
leading and trailing whitespace; in particular a non-empty but
whitespace-only completion is returned as the empty string (a present value,
not the absence marker), and the orchestrator then takes exactly the same
path as for a failed extraction stage: the run with such a completion
produces the same event trace as a run whose extractor-stage call fails
fatally. -/
theorem llm_returns_stripped_content (behavior : APIBehavior) (max_retries delay : Nat)
    (resp : ChatResponse) (choice : Choice) (rest : List Choice) (content : PyStr)
    (hmr : 0 < max_retries) (hb : behavior 0 = APIResult.ok resp)
    (hc : resp.choices = choice :: rest) (hm : choice.message = some (some content))
    (hne : content ≠ []) :
    (call_llm behavior max_retries delay).1 = some (pyStrip content) ∧
    ((∀ c ∈ content, c.isWhitespace = true) →
      ∀ (doc : PDFDoc) (t : PyStr) (sA : PyStr → PyStr → APIBehavior),
        extract_text_from_pdf doc = some t → t ≠ [] →
        run_digestion_pipeline doc true (fun _ _ => behavior) sA =
          run_digestion_pipeline doc true (fun _ _ _ => APIResult.otherError) sA) := by
  have hfirst : call_llm behavior max_retries delay =
      (some (pyStrip content), 0 + 1, List.replicate 0 delay) :=
    call_llm_go_success behavior delay resp choice rest content 0 max_retries 0 hmr
      (fun n h1 h2 => absurd h2 (by omega)) (by simpa using hb) hc hm hne
  constructor
  · rw [hfirst]
  · intro hws doc t sA hdoc hne'
    have hstrip : pyStrip content = [] := pyStrip_all_ws content hws
    have h1 : (execute_task ((fun (_ _ : PyStr) => behavior) extractor_role
        (extraction_prompt_sent t))).1 = some [] := by
      show (call_llm behavior 3 5).1 = some []
      have hdef : call_llm behavior 3 5 =
          (some (pyStrip content), 0 + 1, List.replicate 0 5) :=
        call_llm_go_success behavior 5 resp choice rest content 0 3 0 (by omega)
          (fun n hn1 hn2 => absurd hn2 (by omega)) (by simpa using hb) hc hm hne
      rw [hdef, hstrip]
    have h1' : (execute_task ((fun (_ _ : PyStr) (_ : Nat) => APIResult.otherError)
        extractor_role (extraction_prompt_sent t))).1 = none := by
      show (call_llm (fun _ => APIResult.otherError) 3 5).1 = none
      rw [call_llm_first_fatal (fun _ => APIResult.otherError) 3 5 (by omega) rfl]
    rw [pipeline_stage1_empty doc t _ sA hdoc hne' h1,
      pipeline_stage1_none doc t _ sA hdoc hne' h1']

theorem llm_returns_stripped_content_witness :
    (call_llm (fun _ => APIResult.ok ⟨[⟨some (some [' '])⟩]⟩) 3 5).1 =
      some (pyStrip [' ']) ∧
    run_digestion_pipeline (Except.ok [['h', 'i']]) true
        (fun _ _ => (fun _ => APIResult.ok ⟨[⟨some (some [' '])⟩]⟩))
        (fun _ _ _ => APIResult.rateLimit) =
      run_digestion_pipeline (Except.ok [['h', 'i']]) true
        (fun _ _ _ => APIResult.otherError)
        (fun _ _ _ => APIResult.rateLimit) := by
  have h := llm_returns_stripped_content (fun _ => APIResult.ok ⟨[⟨some (some [' '])⟩]⟩)
    3 5 ⟨[⟨some (some [' '])⟩]⟩ ⟨some (some [' '])⟩ [] [' ']
    (by decide) rfl rfl rfl (by decide)
  exact ⟨h.1, h.2 (by decide) (Except.ok [['h', 'i']]) ['h', 'i']
    (fun _ _ _ => APIResult.rateLimit) (by decide) (by decide)⟩

end Digester
